import Mathlib

/-!
Verification development for the Enchanced Speech History NVDA add-on
(file `enchancedSpeechHistory/globalPlugins/enchancedSpeechHistory.py`).

The stateful core of the plugin is shallowly embedded here:
the bounded history deque with its review cursor
(`GlobalPlugin._history`, `GlobalPlugin.history_pos`), the
recording accumulator (`GlobalPlugin._recorded`, `GlobalPlugin._recording`),
the speech interception (`mySpeak`, `append_to_history`,
`getSequenceText`), the navigation scripts (`script_prevString`,
`script_nextString`), the recording scripts, the dialog search logic
(`HistoryDialog.doSearch`, `HistoryDialog.onSearch`), and the update
version comparison (`_versionToTuple`, `_isVersionNewer`).
-/

namespace SpeechHistory

/-! ## Speech sequences and derived text -/

/-- One element of an NVDA speech sequence: a literal string, the
`FocusLossCancellableSpeechCommand` filtered out by `append_to_history`,
or any other non-string speech command. -/
inductive SpeechItem where
  | str (s : String)
  | focusLoss
  | command
deriving DecidableEq, Repr

/-- Modelled from the spec: the host speech viewer module supplies a fixed
separator (`speechViewer.SPEECH_ITEM_SEPARATOR`, two spaces) used when the
literal text fragments of a sequence are joined; the host module itself is
not part of this repository. -/
def SPEECH_ITEM_SEPARATOR : String := "  "

/-- The text carried by a speech item, if any. -/
def itemText : SpeechItem → Option String
  | SpeechItem.str s => some s
  | _ => none

/-- Python `sep.join(l)`. -/
def pyJoin (sep : String) : List String → String
  | [] => ""
  | [a] => a
  | a :: b :: rest => a ++ sep ++ pyJoin sep (b :: rest)

/-- `GlobalPlugin.getSequenceText`: joins the string items of a sequence
with the speech item separator
(`SPEECH_ITEM_SEPARATOR.join([x for x in sequence if isinstance(x, str)])`). -/
def getSequenceText (sequence : List SpeechItem) : String :=
  pyJoin SPEECH_ITEM_SEPARATOR (sequence.filterMap itemText)

/-- Python `s.strip()`: removes whitespace from both ends. -/
def pyStrip (s : String) : String :=
  String.mk (((s.toList.dropWhile Char.isWhitespace).reverse.dropWhile
    Char.isWhitespace).reverse)

/-! ## Plugin state -/

/-- The mutable state of `GlobalPlugin` relevant to the history core:
the deque `_history` (index 0 is the newest entry, `maxHistoryLength` is
its `maxlen`), the accumulator `_recorded`, the flag `_recording`, and the
review cursor `history_pos`. -/
structure PluginState where
  maxHistoryLength : Nat
  history : List (List SpeechItem)
  recorded : List String
  recording : Bool
  history_pos : Nat
deriving DecidableEq, Repr

/-- `GlobalPlugin.__init__`: empty deque with the configured `maxlen`,
empty accumulator, not recording, cursor 0. -/
def initState (maxLen : Nat) : PluginState :=
  { maxHistoryLength := maxLen
    history := []
    recorded := []
    recording := false
    history_pos := 0 }

/-- The filtering in `append_to_history`:
`[command for command in seq if not isinstance(command, FocusLossCancellableSpeechCommand)]`. -/
def removeFocusLoss (seq : List SpeechItem) : List SpeechItem :=
  seq.filter (fun c => c ≠ SpeechItem.focusLoss)

/-- `GlobalPlugin.append_to_history`: filter the sequence, `appendleft`
onto the bounded deque (evicting from the right when full), reset the
cursor to 0, and, while recording, append the derived text to `_recorded`. -/
def append_to_history (st : PluginState) (seq : List SpeechItem) : PluginState :=
  let s := removeFocusLoss seq
  { st with
    history := (s :: st.history).take st.maxHistoryLength
    history_pos := 0
    recorded :=
      if st.recording then st.recorded ++ [getSequenceText s] else st.recorded }

/-- `GlobalPlugin.mySpeak`: after passing the sequence to the original
speak function, append it to history only when the joined text is not
whitespace-only (`if text.strip():`). -/
def mySpeak (st : PluginState) (sequence : List SpeechItem) : PluginState :=
  if pyStrip (getSequenceText sequence) ≠ "" then append_to_history st sequence
  else st

/-- `GlobalPlugin.clearHistory`: empty the deque, reset the cursor,
empty the accumulator. -/
def clearHistory (st : PluginState) : PluginState :=
  { st with history := [], history_pos := 0, recorded := [] }

/-! ## Navigation scripts -/

/-- Which end of the history a navigation boundary beep signals:
`script_prevString` beeps at the oldest end
(`_beepHistoryBoundary(atBeginning=False)`), `script_nextString` at the
newest end (`atBeginning=True`). -/
inductive BoundaryHit where
  | oldest
  | newest
deriving DecidableEq, Repr

/-- Result of running a navigation script: the new plugin state, the
boundary beep if one was produced, the history entry passed to
`oldSpeak` if any, and whether the empty-history notice was spoken. -/
structure NavResult where
  state : PluginState
  boundary : Option BoundaryHit
  spoken : Option (List SpeechItem)
  emptyNotice : Bool
deriving DecidableEq, Repr

/-- `GlobalPlugin.script_prevString`: with empty history, speak the
notice and stop.  Otherwise increment `history_pos`; if it passed
`len(history) - 1`, beep the oldest-end boundary and decrement back;
finally speak `history[history_pos]`. -/
def script_prevString (st : PluginState) : NavResult :=
  if st.history.isEmpty then
    { state := st, boundary := none, spoken := none, emptyNotice := true }
  else
    let p := st.history_pos + 1
    if p > st.history.length - 1 then
      { state := { st with history_pos := p - 1 }
        boundary := some BoundaryHit.oldest
        spoken := st.history.get? (p - 1)
        emptyNotice := false }
    else
      { state := { st with history_pos := p }
        boundary := none
        spoken := st.history.get? p
        emptyNotice := false }

/-- `GlobalPlugin.script_nextString`: with empty history, speak the
notice and stop.  Otherwise decrement `history_pos`; if it went below 0
(that is, it was 0), beep the newest-end boundary and increment back;
finally speak `history[history_pos]`. -/
def script_nextString (st : PluginState) : NavResult :=
  if st.history.isEmpty then
    { state := st, boundary := none, spoken := none, emptyNotice := true }
  else if st.history_pos = 0 then
    { state := st
      boundary := some BoundaryHit.newest
      spoken := st.history.get? 0
      emptyNotice := false }
  else
    { state := { st with history_pos := st.history_pos - 1 }
      boundary := none
      spoken := st.history.get? (st.history_pos - 1)
      emptyNotice := false }

/-! ## Recording scripts -/

/-- The user-visible notice spoken by the recording scripts. -/
inductive RecordingNotice where
  | started
  | alreadyRecording
  | stoppedCopied
  | stoppedEmpty
  | notRecording
deriving DecidableEq, Repr

/-- `GlobalPlugin.script_startRecording`: if already recording, speak the
notice and change nothing; otherwise set `_recording = True`. -/
def script_startRecording (st : PluginState) : PluginState × RecordingNotice :=
  if st.recording then (st, RecordingNotice.alreadyRecording)
  else ({ st with recording := true }, RecordingNotice.started)

/-- Result of `script_stopRecording`: the new state, the text copied to
the clipboard if any, and the notice spoken. -/
structure StopResult where
  state : PluginState
  copiedText : Option String
  notice : RecordingNotice
deriving DecidableEq, Repr

/-- `GlobalPlugin.script_stopRecording`: if not recording, speak the
notice and change nothing.  Otherwise clear the flag, join `_recorded`
with newlines, clear `_recorded`, and copy the joined text to the
clipboard when it is nonempty. -/
def script_stopRecording (st : PluginState) : StopResult :=
  if !st.recording then
    { state := st, copiedText := none, notice := RecordingNotice.notRecording }
  else
    let recordedText := pyJoin "\n" st.recorded
    let st1 := { st with recording := false, recorded := [] }
    if recordedText ≠ "" then
      { state := st1, copiedText := some recordedText
        notice := RecordingNotice.stoppedCopied }
    else
      { state := st1, copiedText := none
        notice := RecordingNotice.stoppedEmpty }

/-! ## Reachable plugin states -/

/-- The plugin states reachable from `__init__` through the operations
that touch the history core. -/
inductive Reachable : PluginState → Prop where
  | init (c : Nat) : Reachable (initState c)
  | speak (s : PluginState) (seq : List SpeechItem) :
      Reachable s → Reachable (mySpeak s seq)
  | startRec (s : PluginState) :
      Reachable s → Reachable (script_startRecording s).1
  | stopRec (s : PluginState) :
      Reachable s → Reachable (script_stopRecording s).state
  | clearH (s : PluginState) :
      Reachable s → Reachable (clearHistory s)
  | prev (s : PluginState) :
      Reachable s → Reachable (script_prevString s).state
  | next (s : PluginState) :
      Reachable s → Reachable (script_nextString s).state

/-- The invariant of the recording accumulator: whenever recording is
inactive, the accumulator is empty. -/
def recordedEmptyWhenIdle (st : PluginState) : Prop :=
  st.recording = false → st.recorded = []

/-- Pushing a chronological list of sequences into a fresh plugin
(`deque(maxlen=c)` plus repeated `append_to_history`). -/
def pushAll (c : Nat) (entries : List (List SpeechItem)) : PluginState :=
  entries.foldl append_to_history (initState c)

/-- Iterating `script_prevString` a number of times, keeping the state. -/
def iterPrev (st : PluginState) : Nat → PluginState
  | 0 => st
  | k + 1 => (script_prevString (iterPrev st k)).state

/-! ## History dialog search -/

/-- Python `s.lower()` on the characters of a string. -/
def lowerStr (s : String) : String :=
  String.mk (s.toList.map Char.toLower)

/-- Python substring test `needle in haystack` on character lists. -/
def containsSub (needle : List Char) : List Char → Bool
  | [] => needle.isEmpty
  | c :: rest => List.isPrefixOf needle (c :: rest) || containsSub needle rest

/-- The state of `HistoryDialog` relevant to searching: the snapshot
`history` of entry texts, the filtered list `searchHistory`, the
remembered focus positions `searches` (an association list read through
`List.lookup`, so a prepended pair overrides older ones exactly as a
dict assignment does), the current query `curSearch`, the selected
indices `selection`, and the index currently focused in the list
control (`None` models a list with no focused row). -/
structure DialogState where
  history : List String
  searchHistory : List String
  searches : List (String × Nat)
  curSearch : String
  selection : List Nat
  focused : Option Nat
deriving DecidableEq, Repr

/-- `HistoryDialog.doSearch`: clear the selection, recompute
`searchHistory` (everything for an empty query, otherwise the entries
whose lowercased text contains the query), and, when the filtered list
is nonempty, focus the index remembered for this query (default 0),
clamped to `len(searchHistory) - 1`. -/
def doSearch (st : DialogState) (text : String) : DialogState :=
  let searchHistory :=
    if text = "" then st.history
    else st.history.filter (fun item => containsSub text.toList (lowerStr item).toList)
  let focused :=
    if searchHistory.isEmpty then none
    else
      let index := (List.lookup text st.searches).getD 0
      let index := if index ≥ searchHistory.length then searchHistory.length - 1 else index
      some index
  { st with searchHistory := searchHistory, selection := [], focused := focused }

/-- `HistoryDialog.onSearch`: lowercase the field text; if unchanged, do
nothing.  Otherwise record the currently focused index (0 when the list
control reports no focus) under the previous query, switch `curSearch`,
and rerun `doSearch`. -/
def onSearch (st : DialogState) (rawText : String) : DialogState :=
  let text := lowerStr rawText
  if text = st.curSearch then st
  else
    let index := (st.focused).getD 0
    let st1 := { st with searches := (st.curSearch, index) :: st.searches
                         curSearch := text }
    doSearch st1 text

/-- `HistoryDialog.__init__` followed by `updateHistory` on a given
buffer snapshot: `searches = {"": 0}`, empty query, then an initial
`doSearch("")`. -/
def openDialog (snapshot : List String) : DialogState :=
  doSearch
    { history := snapshot
      searchHistory := []
      searches := [("", 0)]
      curSearch := ""
      selection := []
      focused := none }
    ""

/-! ## Update version comparison -/

/-- The maximal digit runs of a character list, as numbers: the model of
`re.findall(r"\d+", s)` followed by `int`.  `cur` holds the value of the
digit run currently being read. -/
def digitRunsAux : List Char → Option Nat → List Nat
  | [], some n => [n]
  | [], none => []
  | c :: rest, cur =>
    if c.isDigit then
      digitRunsAux rest (some ((cur.getD 0) * 10 + (c.toNat - '0'.toNat)))
    else
      match cur with
      | some n => n :: digitRunsAux rest none
      | none => digitRunsAux rest none

/-- `_versionToTuple`: strip the string, remove leading `v`/`V`
characters, read all digit runs as integers, and fall back to `(0,)`
when there are none. -/
def _versionToTuple (version : String) : List Nat :=
  let stripped := (pyStrip version).toList.dropWhile (fun c => c = 'v' ∨ c = 'V')
  let parts := digitRunsAux stripped none
  if parts = [] then [0] else parts

/-- Right-padding with zeros: `parts += (0,) * (maxLen - len(parts))`. -/
def padZeros (parts : List Nat) (n : Nat) : List Nat :=
  parts ++ List.replicate (n - parts.length) 0

/-- Python lexicographic `>` on integer tuples. -/
def tupleGt : List Nat → List Nat → Bool
  | [], _ => false
  | _ :: _, [] => true
  | a :: as, b :: bs => if a > b then true else if a < b then false else tupleGt as bs

/-- `_isVersionNewer`: pad both version tuples to a common length with
zeros and compare lexicographically; true when the latest version is
strictly greater. -/
def _isVersionNewer (currentVersion latestVersion : String) : Bool :=
  let currentParts := _versionToTuple currentVersion
  let latestParts := _versionToTuple latestVersion
  let maxLen := max currentParts.length latestParts.length
  tupleGt (padZeros latestParts maxLen) (padZeros currentParts maxLen)

/-! ## Witness fixtures -/

/-- A one-entry plugin state with the cursor on that entry. -/
def cexState : PluginState :=
  { maxHistoryLength := 5
    history := [[SpeechItem.str "hi"]]
    recorded := []
    recording := false
    history_pos := 0 }

/-- Two-entry state for the C3 witness. -/
def twoState : PluginState :=
  { maxHistoryLength := 5
    history := [[SpeechItem.str "a"], [SpeechItem.str "b"]]
    recorded := []
    recording := false
    history_pos := 0 }

/-- Dialog state for the C7 witness. -/
def dlgState : DialogState :=
  { history := ["alpha", "beta"]
    searchHistory := []
    searches := [("a", 5)]
    curSearch := ""
    selection := []
    focused := some 1 }

/-! ## Helper lemmas -/

theorem append_recording (st : PluginState) (seq : List SpeechItem) :
    (append_to_history st seq).recording = st.recording := by
  simp [append_to_history]

theorem append_maxlen (st : PluginState) (seq : List SpeechItem) :
    (append_to_history st seq).maxHistoryLength = st.maxHistoryLength := by
  simp [append_to_history]

theorem rec_idle_append (st : PluginState) (seq : List SpeechItem)
    (h : recordedEmptyWhenIdle st) :
    recordedEmptyWhenIdle (append_to_history st seq) := by
  intro hrec
  have hrec2 : st.recording = false := by simpa [append_to_history] using hrec
  simp [append_to_history, hrec2, h hrec2]

theorem rec_idle_speak (st : PluginState) (seq : List SpeechItem)
    (h : recordedEmptyWhenIdle st) :
    recordedEmptyWhenIdle (mySpeak st seq) := by
  unfold mySpeak
  split
  · exact rec_idle_append st seq h
  · exact h

theorem rec_idle_start (st : PluginState) (h : recordedEmptyWhenIdle st) :
    recordedEmptyWhenIdle (script_startRecording st).1 := by
  unfold script_startRecording
  split
  · exact h
  · intro hrec
    simp at hrec

theorem rec_idle_stop (st : PluginState) (h : recordedEmptyWhenIdle st) :
    recordedEmptyWhenIdle (script_stopRecording st).state := by
  unfold script_stopRecording
  split
  · exact h
  · dsimp only
    split <;> intro _ <;> rfl

theorem rec_idle_clear (st : PluginState) (_h : recordedEmptyWhenIdle st) :
    recordedEmptyWhenIdle (clearHistory st) := by
  intro _
  rfl

theorem rec_idle_prev (st : PluginState) (h : recordedEmptyWhenIdle st) :
    recordedEmptyWhenIdle (script_prevString st).state := by
  unfold script_prevString
  split
  · exact h
  · dsimp only
    split <;> exact h

theorem rec_idle_next (st : PluginState) (h : recordedEmptyWhenIdle st) :
    recordedEmptyWhenIdle (script_nextString st).state := by
  unfold script_nextString
  split
  · exact h
  · split <;> exact h

theorem reachable_rec_idle (st : PluginState) (h : Reachable st) :
    recordedEmptyWhenIdle st := by
  induction h with
  | init c => intro _; rfl
  | speak s seq _ ih => exact rec_idle_speak s seq ih
  | startRec s _ ih => exact rec_idle_start s ih
  | stopRec s _ ih => exact rec_idle_stop s ih
  | clearH s _ ih => exact rec_idle_clear s ih
  | prev s _ ih => exact rec_idle_prev s ih
  | next s _ ih => exact rec_idle_next s ih

theorem take_cons_take (x : List SpeechItem) (l : List (List SpeechItem)) (c : Nat) :
    (x :: l.take c).take c = (x :: l).take c := by
  cases c with
  | zero => simp
  | succ n =>
    simp [List.take_succ_cons, List.take_take]

theorem foldl_append_maxlen (entries : List (List SpeechItem)) (st : PluginState) :
    (entries.foldl append_to_history st).maxHistoryLength = st.maxHistoryLength := by
  induction entries generalizing st with
  | nil => rfl
  | cons e rest ih =>
    simp only [List.foldl_cons]
    rw [ih, append_maxlen]

theorem pushAll_history (c : Nat) (entries : List (List SpeechItem)) :
    (pushAll c entries).history = ((entries.map removeFocusLoss).reverse).take c := by
  induction entries using List.reverseRecOn with
  | nil => simp [pushAll, initState]
  | append_singleton rest e ih =>
    unfold pushAll at ih ⊢
    rw [List.foldl_append, List.foldl_cons, List.foldl_nil]
    have hmax : (rest.foldl append_to_history (initState c)).maxHistoryLength = c :=
      foldl_append_maxlen rest (initState c)
    simp only [append_to_history, hmax, ih]
    rw [take_cons_take]
    simp

theorem prev_step (st : PluginState) (h : st.history ≠ [])
    (hlt : st.history_pos + 1 ≤ st.history.length - 1) :
    script_prevString st =
      { state := { st with history_pos := st.history_pos + 1 }
        boundary := none
        spoken := st.history.get? (st.history_pos + 1)
        emptyNotice := false } := by
  have h2 : ¬ (st.history_pos + 1 > st.history.length - 1) := by omega
  simp [script_prevString, List.isEmpty_iff, h, h2]

theorem prev_boundary (st : PluginState) (h : st.history ≠ [])
    (hge : st.history_pos + 1 > st.history.length - 1) :
    script_prevString st =
      { state := st
        boundary := some BoundaryHit.oldest
        spoken := st.history.get? st.history_pos
        emptyNotice := false } := by
  simp [script_prevString, List.isEmpty_iff, h, hge]

theorem next_boundary (st : PluginState) (h : st.history ≠ [])
    (h0 : st.history_pos = 0) :
    script_nextString st =
      { state := st
        boundary := some BoundaryHit.newest
        spoken := st.history.get? 0
        emptyNotice := false } := by
  simp [script_nextString, List.isEmpty_iff, h, h0]

theorem iterPrev_pos (st : PluginState) (hne : st.history ≠ [])
    (h0 : st.history_pos = 0) :
    ∀ k, k ≤ st.history.length - 1 →
      (iterPrev st k).history = st.history ∧ (iterPrev st k).history_pos = k := by
  intro k
  induction k with
  | zero => intro _; exact ⟨rfl, h0⟩
  | succ n ih =>
    intro hk
    have hn := ih (by omega)
    have hne2 : (iterPrev st n).history ≠ [] := by rw [hn.1]; exact hne
    have hlt : (iterPrev st n).history_pos + 1 ≤ (iterPrev st n).history.length - 1 := by
      rw [hn.1, hn.2]; omega
    rw [iterPrev, prev_step _ hne2 hlt]
    exact ⟨hn.1, by rw [hn.2]⟩

theorem containsSub_iff (n l : List Char) : containsSub n l = true ↔ n <:+: l := by
  induction l with
  | nil => simp [containsSub, List.isEmpty_iff]
  | cons c rest ih =>
    simp [containsSub, ih, List.infix_cons_iff, List.isPrefixOf_iff_prefix]

theorem containsSub_eq_decide (n l : List Char) :
    containsSub n l = decide (n <:+: l) := by
  cases h : containsSub n l
  · have hn : ¬ n <:+: l := by
      rw [← containsSub_iff, h]
      simp
    simp [hn]
  · simp [(containsSub_iff n l).mp h]

theorem strip_of_whitespace (s : String)
    (h : ∀ c ∈ s.toList, c.isWhitespace = true) : pyStrip s = "" := by
  unfold pyStrip
  have h1 : s.toList.dropWhile Char.isWhitespace = [] :=
    List.dropWhile_eq_nil_iff.mpr h
  rw [h1]
  rfl

theorem pyJoin_three (a b c : String) :
    pyJoin "\n" [a, b, c] = a ++ "\n" ++ b ++ "\n" ++ c := by
  simp [pyJoin, String.append_assoc]

theorem pyJoin_three_ne_empty (a b c : String) :
    pyJoin "\n" [a, b, c] ≠ "" := by
  rw [pyJoin_three]
  intro hcontr
  have hlen := congrArg String.length hcontr
  simp only [String.length_append] at hlen
  have h1 : ("\n" : String).length = 1 := rfl
  have h0 : ("" : String).length = 0 := rfl
  rw [h1, h0] at hlen
  omega

theorem doSearch_searchHistory (st : DialogState) (q : String) :
    (doSearch st q).searchHistory =
      if q = "" then st.history
      else st.history.filter (fun item => containsSub q.toList (lowerStr item).toList) := rfl

theorem doSearch_searches (st : DialogState) (q : String) :
    (doSearch st q).searches = st.searches := rfl

theorem doSearch_focused_raw (st : DialogState) (q : String) :
    (doSearch st q).focused =
      if ((doSearch st q).searchHistory).isEmpty then none
      else some
        (if ((List.lookup q st.searches).getD 0) ≥ (doSearch st q).searchHistory.length
         then (doSearch st q).searchHistory.length - 1
         else (List.lookup q st.searches).getD 0) := rfl

/-- C1: for every sequence of pushes into a history buffer of capacity
`c ≥ 1`, after each push the buffer size never exceeds `c`, the size is
exactly `min n c` for `n` pushes, and the buffer holds the most recently
pushed entries in reverse insertion order, the most recent at logical
position 0 (the buffer equals the reversed push list truncated to `c`). -/
theorem ring_buffer_bounded_and_recent (c : Nat) (entries : List (List SpeechItem))
    (_hc : 1 ≤ c) :
    (pushAll c entries).history.length ≤ c
    ∧ (pushAll c entries).history.length = min entries.length c
    ∧ (pushAll c entries).history = ((entries.map removeFocusLoss).reverse).take c := by
  refine ⟨?_, ?_, pushAll_history c entries⟩
  · rw [pushAll_history]
    simp [List.length_take]
  · rw [pushAll_history]
    simp [List.length_take]
    omega

/-- C1 witness: capacity 2, three pushes. -/
theorem ring_buffer_bounded_and_recent_witness :
    1 ≤ 2
    ∧ (pushAll 2 [[SpeechItem.str "a"], [SpeechItem.str "b"], [SpeechItem.str "c"]]).history.length ≤ 2
    ∧ (pushAll 2 [[SpeechItem.str "a"], [SpeechItem.str "b"], [SpeechItem.str "c"]]).history
        = [[SpeechItem.str "c"], [SpeechItem.str "b"]] :=
  ⟨by decide,
   (ring_buffer_bounded_and_recent 2 [[SpeechItem.str "a"], [SpeechItem.str "b"], [SpeechItem.str "c"]] (by decide)).1,
   by
     rw [(ring_buffer_bounded_and_recent 2 [[SpeechItem.str "a"], [SpeechItem.str "b"], [SpeechItem.str "c"]] (by decide)).2.2]
     decide⟩

/-- C2 counterexample: in a one-entry buffer with the cursor at the only
entry, both navigation scripts report a boundary hit and nevertheless
speak the entry at the cursor, so the claim that no entry is read on a
boundary hit is false on the code. -/
theorem boundary_speaks_entry_cex :
    (script_prevString cexState).boundary = some BoundaryHit.oldest
    ∧ (script_prevString cexState).spoken = some [SpeechItem.str "hi"]
    ∧ ¬ ((script_prevString cexState).spoken = none)
    ∧ (script_nextString cexState).boundary = some BoundaryHit.newest
    ∧ ¬ ((script_nextString cexState).spoken = none) := by decide

/-- C2 amended: for every non-empty buffer, when `script_prevString` or
`script_nextString` would move the cursor outside `[0, size-1]`, the
cursor stays at the boundary and the operation reports a boundary hit
distinguishing the oldest end from the newest end; however the entry at
the unchanged boundary cursor is still read aloud by the operation
(rather than no entry being read, as the original claim stated). -/
theorem boundary_clamps_and_respeaks (st : PluginState) (h : st.history ≠ []) :
    (st.history_pos = st.history.length - 1 →
        (script_prevString st).state.history_pos = st.history_pos
        ∧ (script_prevString st).boundary = some BoundaryHit.oldest
        ∧ (script_prevString st).spoken = st.history.get? st.history_pos
        ∧ ¬ ((script_prevString st).spoken = none))
    ∧ (st.history_pos = 0 →
        (script_nextString st).state.history_pos = 0
        ∧ (script_nextString st).boundary = some BoundaryHit.newest
        ∧ (script_nextString st).spoken = st.history.get? 0
        ∧ ¬ ((script_nextString st).spoken = none)) := by
  have hlen : 0 < st.history.length := List.length_pos.mpr h
  constructor
  · intro hp
    have hge : st.history_pos + 1 > st.history.length - 1 := by omega
    rw [prev_boundary st h hge]
    refine ⟨rfl, rfl, rfl, ?_⟩
    simp only [List.get?_eq_none]
    omega
  · intro hp
    rw [next_boundary st h hp]
    refine ⟨hp, rfl, rfl, ?_⟩
    simp only [List.get?_eq_none]
    omega

/-- C2 amended witness: the one-entry state. -/
theorem boundary_clamps_and_respeaks_witness :
    ((script_prevString cexState).state.history_pos = cexState.history_pos
      ∧ (script_prevString cexState).boundary = some BoundaryHit.oldest
      ∧ (script_prevString cexState).spoken = cexState.history.get? cexState.history_pos
      ∧ ¬ ((script_prevString cexState).spoken = none))
    ∧ ((script_nextString cexState).state.history_pos = 0
      ∧ (script_nextString cexState).boundary = some BoundaryHit.newest
      ∧ (script_nextString cexState).spoken = cexState.history.get? 0
      ∧ ¬ ((script_nextString cexState).spoken = none)) :=
  ⟨(boundary_clamps_and_respeaks cexState (by decide)).1 (by decide),
   (boundary_clamps_and_respeaks cexState (by decide)).2 (by decide)⟩

/-- C3: for every buffer of size `n ≥ 1` with the cursor at 0, the first
`n - 1` consecutive `script_prevString` calls each succeed without a
boundary hit, moving the cursor to 1, 2, ..., n-1, and the n-th call
reports a boundary hit at the oldest end with the cursor staying at
`n - 1`. -/
theorem moveBack_sequence_boundary (st : PluginState) (n : Nat)
    (hn : 1 ≤ n) (hlen : st.history.length = n) (hpos : st.history_pos = 0) :
    (∀ k, k < n - 1 →
        (script_prevString (iterPrev st k)).boundary = none
        ∧ (iterPrev st (k + 1)).history_pos = k + 1)
    ∧ (script_prevString (iterPrev st (n - 1))).boundary = some BoundaryHit.oldest
    ∧ (iterPrev st n).history_pos = n - 1 := by
  have hne : st.history ≠ [] := by
    intro hnil
    rw [hnil] at hlen
    simp at hlen
    omega
  have hiter := iterPrev_pos st hne hpos
  refine ⟨?_, ?_, ?_⟩
  · intro k hk
    have hk2 := hiter k (by omega)
    have hne2 : (iterPrev st k).history ≠ [] := by rw [hk2.1]; exact hne
    have hlt : (iterPrev st k).history_pos + 1 ≤ (iterPrev st k).history.length - 1 := by
      rw [hk2.1, hk2.2, hlen]
      omega
    constructor
    · rw [prev_step _ hne2 hlt]
    · rw [iterPrev, prev_step _ hne2 hlt]
      simp [hk2.2]
  · have hk2 := hiter (n - 1) (by omega)
    have hne2 : (iterPrev st (n - 1)).history ≠ [] := by rw [hk2.1]; exact hne
    have hge : (iterPrev st (n - 1)).history_pos + 1 > (iterPrev st (n - 1)).history.length - 1 := by
      rw [hk2.1, hk2.2, hlen]
      omega
    rw [prev_boundary _ hne2 hge]
  · have hk2 := hiter (n - 1) (by omega)
    have hne2 : (iterPrev st (n - 1)).history ≠ [] := by rw [hk2.1]; exact hne
    have hge : (iterPrev st (n - 1)).history_pos + 1 > (iterPrev st (n - 1)).history.length - 1 := by
      rw [hk2.1, hk2.2, hlen]
      omega
    have hsplit : n = (n - 1) + 1 := by omega
    rw [hsplit, iterPrev, prev_boundary _ hne2 hge]
    rw [hk2.2]
    omega

/-- C3 witness: a two-entry buffer. -/
theorem moveBack_sequence_boundary_witness :
    (script_prevString (iterPrev twoState 0)).boundary = none
    ∧ (iterPrev twoState 1).history_pos = 1
    ∧ (script_prevString (iterPrev twoState 1)).boundary = some BoundaryHit.oldest
    ∧ (iterPrev twoState 2).history_pos = 1 :=
  ⟨((moveBack_sequence_boundary twoState 2 (by decide) (by decide) rfl).1 0 (by decide)).1,
   ((moveBack_sequence_boundary twoState 2 (by decide) (by decide) rfl).1 0 (by decide)).2,
   (moveBack_sequence_boundary twoState 2 (by decide) (by decide) rfl).2.1,
   (moveBack_sequence_boundary twoState 2 (by decide) (by decide) rfl).2.2⟩

/-- Step lemma: while recording, a push appends the derived text. -/
theorem append_recorded_of_recording (s : PluginState) (e : List SpeechItem)
    (h : s.recording = true) :
    (append_to_history s e).recorded = s.recorded ++ [getSequenceText (removeFocusLoss e)] := by
  simp [append_to_history, h]

/-- Step lemma: stopping while recording copies the joined accumulator
and empties it. -/
theorem stop_of_recording (s : PluginState) (h : s.recording = true)
    (hne : pyJoin "\n" s.recorded ≠ "") :
    (script_stopRecording s).copiedText = some (pyJoin "\n" s.recorded)
    ∧ (script_stopRecording s).state.recorded = [] := by
  unfold script_stopRecording
  rw [if_neg (by simp [h])]
  dsimp only
  rw [if_pos hne]
  exact ⟨rfl, rfl⟩

/-- C4: from a reachable idle state, starting recording, pushing three
entries with non-empty derived text and stopping yields the three entry
texts joined by newline in push (chronological) order as the copied
text, and the accumulator is empty immediately after the stop. -/
theorem recording_session_joins_in_push_order
    (st : PluginState) (e1 e2 e3 : List SpeechItem)
    (hr : Reachable st) (hidle : st.recording = false)
    (_h1 : getSequenceText (removeFocusLoss e1) ≠ "")
    (_h2 : getSequenceText (removeFocusLoss e2) ≠ "")
    (_h3 : getSequenceText (removeFocusLoss e3) ≠ "") :
    (script_stopRecording
        (append_to_history (append_to_history (append_to_history
          (script_startRecording st).1 e1) e2) e3)).copiedText
      = some (getSequenceText (removeFocusLoss e1) ++ "\n"
          ++ getSequenceText (removeFocusLoss e2) ++ "\n"
          ++ getSequenceText (removeFocusLoss e3))
    ∧ (script_stopRecording
        (append_to_history (append_to_history (append_to_history
          (script_startRecording st).1 e1) e2) e3)).state.recorded = [] := by
  have hrec0 : st.recorded = [] := reachable_rec_idle st hr hidle
  have hstart : (script_startRecording st).1 = { st with recording := true } := by
    simp [script_startRecording, hidle]
  rw [hstart]
  have hra : ({ st with recording := true } : PluginState).recording = true := rfl
  have hrb : (append_to_history { st with recording := true } e1).recording = true := by
    rw [append_recording]
  have hrc : (append_to_history (append_to_history { st with recording := true } e1)
      e2).recording = true := by
    rw [append_recording, append_recording]
  have hrd : (append_to_history (append_to_history (append_to_history
      { st with recording := true } e1) e2) e3).recording = true := by
    rw [append_recording, append_recording, append_recording]
  have hA : (append_to_history { st with recording := true } e1).recorded
      = [getSequenceText (removeFocusLoss e1)] := by
    rw [append_recorded_of_recording _ e1 hra]
    show st.recorded ++ _ = _
    rw [hrec0]
    rfl
  have hB : (append_to_history (append_to_history { st with recording := true } e1)
        e2).recorded
      = [getSequenceText (removeFocusLoss e1), getSequenceText (removeFocusLoss e2)] := by
    rw [append_recorded_of_recording _ e2 hrb, hA]
    rfl
  have hC : (append_to_history (append_to_history (append_to_history
        { st with recording := true } e1) e2) e3).recorded
      = [getSequenceText (removeFocusLoss e1), getSequenceText (removeFocusLoss e2),
         getSequenceText (removeFocusLoss e3)] := by
    rw [append_recorded_of_recording _ e3 hrc, hB]
    rfl
  have hne : pyJoin "\n" (append_to_history (append_to_history (append_to_history
      { st with recording := true } e1) e2) e3).recorded ≠ "" := by
    rw [hC]
    exact pyJoin_three_ne_empty _ _ _
  have hstop := stop_of_recording _ hrd hne
  refine ⟨?_, hstop.2⟩
  rw [hstop.1, hC, pyJoin_three]

/-- C4 witness: three concrete pushes from a fresh plugin. -/
theorem recording_session_joins_in_push_order_witness :
    (script_stopRecording
        (append_to_history (append_to_history (append_to_history
          (script_startRecording (initState 4)).1
          [SpeechItem.str "one"]) [SpeechItem.str "two"]) [SpeechItem.str "three"])).copiedText
      = some "one\ntwo\nthree"
    ∧ (script_stopRecording
        (append_to_history (append_to_history (append_to_history
          (script_startRecording (initState 4)).1
          [SpeechItem.str "one"]) [SpeechItem.str "two"]) [SpeechItem.str "three"])).state.recorded
      = [] :=
  recording_session_joins_in_push_order (initState 4)
    [SpeechItem.str "one"] [SpeechItem.str "two"] [SpeechItem.str "three"]
    (Reachable.init 4) rfl (by decide) (by decide) (by decide)

/-- C5: on every reachable state, `script_startRecording` from the idle
state turns recording on with an empty accumulator (so text accumulated
before the start never appears in the later recorded output) while
leaving the history and cursor alone, and when already recording it
changes nothing and reports the already-recording notice. -/
theorem start_recording_idle_to_recording (st : PluginState) (hr : Reachable st) :
    (st.recording = false →
        (script_startRecording st).1.recording = true
        ∧ (script_startRecording st).1.recorded = []
        ∧ (script_startRecording st).1.history = st.history
        ∧ (script_startRecording st).1.history_pos = st.history_pos
        ∧ (script_startRecording st).2 = RecordingNotice.started)
    ∧ (st.recording = true →
        (script_startRecording st).1 = st
        ∧ (script_startRecording st).2 = RecordingNotice.alreadyRecording) := by
  constructor
  · intro hidle
    have hrec : st.recorded = [] := reachable_rec_idle st hr hidle
    simp [script_startRecording, hidle, hrec]
  · intro hrecing
    simp [script_startRecording, hrecing]

/-- C5 witness: the initial state. -/
theorem start_recording_idle_to_recording_witness :
    (script_startRecording (initState 2)).1.recording = true
    ∧ (script_startRecording (initState 2)).1.recorded = []
    ∧ (script_startRecording (initState 2)).1.history = (initState 2).history
    ∧ (script_startRecording (initState 2)).1.history_pos = (initState 2).history_pos
    ∧ (script_startRecording (initState 2)).2 = RecordingNotice.started :=
  (start_recording_idle_to_recording (initState 2) (Reachable.init 2)).1 rfl

/-- C9: in every reachable plugin state the recording accumulator is
empty whenever recording is inactive, and each of push/append, start,
stop and clear preserves this invariant. -/
theorem recorded_empty_when_idle_is_invariant :
    (∀ st, Reachable st → recordedEmptyWhenIdle st)
    ∧ (∀ st seq, recordedEmptyWhenIdle st →
        recordedEmptyWhenIdle (append_to_history st seq))
    ∧ (∀ st, recordedEmptyWhenIdle st →
        recordedEmptyWhenIdle (script_startRecording st).1)
    ∧ (∀ st, recordedEmptyWhenIdle st →
        recordedEmptyWhenIdle (script_stopRecording st).state)
    ∧ (∀ st, recordedEmptyWhenIdle st →
        recordedEmptyWhenIdle (clearHistory st)) :=
  ⟨reachable_rec_idle, rec_idle_append, rec_idle_start, rec_idle_stop, rec_idle_clear⟩

/-- C9 witness: the initial state is reachable and idle. -/
theorem recorded_empty_when_idle_is_invariant_witness :
    (initState 3).recorded = [] :=
  recorded_empty_when_idle_is_invariant.1 (initState 3) (Reachable.init 3) rfl

/-- C10: an intercepted speech sequence whose string fragments join to
an empty or whitespace-only text leaves the history buffer, the cursor
position and the recording accumulator unchanged; such sequences are
never appended to history. -/
theorem whitespace_speech_leaves_state_unchanged (st : PluginState)
    (sequence : List SpeechItem)
    (hws : ∀ c ∈ (getSequenceText sequence).toList, c.isWhitespace = true) :
    (mySpeak st sequence).history = st.history
    ∧ (mySpeak st sequence).history_pos = st.history_pos
    ∧ (mySpeak st sequence).recorded = st.recorded
    ∧ mySpeak st sequence = st := by
  have hstrip : pyStrip (getSequenceText sequence) = "" := strip_of_whitespace _ hws
  have heq : mySpeak st sequence = st := by simp [mySpeak, hstrip]
  exact ⟨by rw [heq], by rw [heq], by rw [heq], heq⟩

/-- C10 witness: a whitespace-only sequence. -/
theorem whitespace_speech_leaves_state_unchanged_witness :
    (mySpeak cexState [SpeechItem.str " ", SpeechItem.command]).history = cexState.history
    ∧ (mySpeak cexState [SpeechItem.str " ", SpeechItem.command]).history_pos
        = cexState.history_pos
    ∧ (mySpeak cexState [SpeechItem.str " ", SpeechItem.command]).recorded = cexState.recorded
    ∧ mySpeak cexState [SpeechItem.str " ", SpeechItem.command] = cexState :=
  whitespace_speech_leaves_state_unchanged cexState
    [SpeechItem.str " ", SpeechItem.command] (by decide)

/-- C6: for every buffer snapshot and query, the filtered view consists
of exactly the snapshot entries containing the case-folded query as a
case-insensitive substring, in original snapshot order; in particular
the snapshot [Hello world, Goodbye, hello there] with query hello
yields [Hello world, hello there]. -/
theorem search_filters_case_insensitive_in_order (st : DialogState) (raw : String) :
    (doSearch st (lowerStr raw)).searchHistory
      = st.history.filter
          (fun item => decide ((lowerStr raw).toList <:+: (lowerStr item).toList))
    ∧ (doSearch (openDialog ["Hello world", "Goodbye", "hello there"]) "hello").searchHistory
      = ["Hello world", "hello there"] := by
  constructor
  · by_cases hq : lowerStr raw = ""
    · rw [hq, doSearch_searchHistory, if_pos rfl]
      have hnil : ("" : String).toList = [] := rfl
      rw [hnil]
      exact (List.filter_eq_self.mpr (fun a _ => decide_eq_true (List.nil_infix))).symm
    · rw [doSearch_searchHistory, if_neg hq]
      exact List.filter_congr (fun a _ => containsSub_eq_decide _ _)
  · decide

/-- C7: setting a query focuses the index remembered for that query
(default 0 for a never-seen query), clamped to the last index when the
filtered view has shrunk; no focus is set when the filtered view is
empty; and switching away from a query records the currently focused
index under the previous query so a revisit restores it. -/
theorem search_restores_remembered_focus (st : DialogState) (raw : String) :
    ((doSearch st (lowerStr raw)).searchHistory = [] →
        (doSearch st (lowerStr raw)).focused = none)
    ∧ ((doSearch st (lowerStr raw)).searchHistory ≠ [] →
        (doSearch st (lowerStr raw)).focused
          = some (min ((List.lookup (lowerStr raw) st.searches).getD 0)
              ((doSearch st (lowerStr raw)).searchHistory.length - 1)))
    ∧ (lowerStr raw ≠ st.curSearch →
        List.lookup st.curSearch (onSearch st raw).searches
          = some ((st.focused).getD 0)) := by
  refine ⟨?_, ?_, ?_⟩
  · intro he
    rw [doSearch_focused_raw, if_pos (by simp [List.isEmpty_iff, he])]
  · intro hne
    have hlen : 1 ≤ (doSearch st (lowerStr raw)).searchHistory.length :=
      List.length_pos.mpr hne
    rw [doSearch_focused_raw, if_neg (by simp [List.isEmpty_iff, hne])]
    congr 1
    split <;> omega
  · intro hneq
    unfold onSearch
    rw [if_neg hneq]
    rw [doSearch_searches]
    simp [List.lookup]

/-- C7 witness: remembered index 5 clamped to the last index 1 of a
two-entry filtered view, and the focus recorded when switching away. -/
theorem search_restores_remembered_focus_witness :
    ((doSearch dlgState (lowerStr "A")).searchHistory ≠ []
      ∧ (doSearch dlgState (lowerStr "A")).focused
          = some (min ((List.lookup (lowerStr "A") dlgState.searches).getD 0)
              ((doSearch dlgState (lowerStr "A")).searchHistory.length - 1)))
    ∧ (lowerStr "A" ≠ dlgState.curSearch
      ∧ List.lookup dlgState.curSearch (onSearch dlgState "A").searches
          = some ((dlgState.focused).getD 0)) :=
  ⟨⟨by decide, (search_restores_remembered_focus dlgState "A").2.1 (by decide)⟩,
   ⟨by decide, (search_restores_remembered_focus dlgState "A").2.2 (by decide)⟩⟩

/-- C8: the version comparison treats version strings as integer tuples
with missing trailing fields as 0 and ignores a leading v: 1.2.1 is
newer than 1.2, 2.0 is newer than 1.9.9, and v1.0 and 1.0 compare equal
so neither is newer than the other. -/
theorem version_comparison_tuple_semantics :
    _isVersionNewer "1.2" "1.2.1" = true
    ∧ _isVersionNewer "1.2.1" "1.2" = false
    ∧ _isVersionNewer "1.9.9" "2.0" = true
    ∧ _isVersionNewer "2.0" "1.9.9" = false
    ∧ _isVersionNewer "1.0" "v1.0" = false
    ∧ _isVersionNewer "v1.0" "1.0" = false
    ∧ _versionToTuple "v1.0" = _versionToTuple "1.0"
    ∧ _versionToTuple "1.2" = [1, 2]
    ∧ _versionToTuple "1.2.1" = [1, 2, 1] := by decide

end SpeechHistory
